import Mathlib

/-!
Shallow embedding of scripts/symbol.py, the Android symbol-resolution script.
All definitions are transcribed from the Python source (line numbers cited in
the doc comments); theorems at the end of the file settle the specification
claims C1-C10.  External effects (the filesystem, environment variables, and
the spawned tool subprocesses) are modelled as explicit oracle parameters, and
the process-wide mutable caches as explicit state threaded through the
functions.
-/

set_option synthInstance.maxSize 512

namespace Symbol

/-!
Regex layer.  symbol.py matches log lines with Python re patterns.  Every
repetition in those patterns applies to a single-character class, so the
engine below provides class repetition as a primitive.  Match candidates are
produced in CPython backtracking priority order: greedy repetitions longest
first, alternation left branch first, and a later element of a sequence
backtracking before an earlier one.  A search scans start positions left to
right and returns the first match, exactly like re.search.  The end anchor
models the dollar of the frame pattern on lines without a trailing newline,
which is the form in which SetAbi receives them.
-/

/-- Character class [0-9]. -/
def isDigitC (c : Char) : Bool := decide ('0' ≤ c) && decide (c ≤ '9')

/-- Character class [0-9a-f] (hex digits as used in the patterns). -/
def isHexC (c : Char) : Bool := isDigitC c || (decide ('a' ≤ c) && decide (c ≤ 'f'))

/-- Character class [ \t]. -/
def isWsC (c : Char) : Bool := decide (c = ' ') || decide (c = '\t')

/-- The dot class: any character except a newline. -/
def isAnyC (c : Char) : Bool := decide (c ≠ '\n')

/-- The single-quote character (written via its code point to keep string
literals quote-free). -/
def quoteC : Char := Char.ofNat 39

/-- Regex abstract syntax covering the constructs appearing in symbol.py:
single-character classes, exact/one-or-more/zero-or-more class repetition,
sequencing, alternation, numbered capture groups and the end anchor. -/
inductive Re where
  | cls (p : Char → Bool)
  | reps (p : Char → Bool) (n : Nat)
  | plus (p : Char → Bool)
  | star (p : Char → Bool)
  | seq (a b : Re)
  | alt (a b : Re)
  | grp (n : Nat) (a : Re)
  | eos

/-- Captured groups of one match candidate: group number paired with the
consumed characters. -/
abbrev Caps := List (Nat × List Char)

/-- Length of the maximal prefix of the string inside the class. -/
def maxRun (p : Char → Bool) : List Char → Nat
  | [] => 0
  | c :: t => if p c then maxRun p t + 1 else 0

/-- All match candidates of a regex against a string, each as (remaining
suffix, captures), in backtracking priority order. -/
def rmatch : Re → List Char → List (List Char × Caps)
  | .cls _, [] => []
  | .cls p, c :: t => if p c then [(t, [])] else []
  | .reps p n, s =>
      if (s.take n).length = n ∧ (s.take n).all p then [(s.drop n, [])] else []
  | .plus p, s =>
      let m := maxRun p s
      (List.range m).map (fun i => (s.drop (m - i), ([] : Caps)))
  | .star p, s =>
      let m := maxRun p s
      (List.range (m + 1)).map (fun i => (s.drop (m - i), ([] : Caps)))
  | .seq a b, s =>
      (rmatch a s).flatMap (fun pr => (rmatch b pr.1).map (fun qr => (qr.1, pr.2 ++ qr.2)))
  | .alt a b, s => rmatch a s ++ rmatch b s
  | .grp n a, s =>
      (rmatch a s).map (fun pr => (pr.1, (n, s.take (s.length - pr.1.length)) :: pr.2))
  | .eos, [] => [([], [])]
  | .eos, _ :: _ => []

/-- re.search: try each start position left to right, return the captures of
the first (highest-priority) match at the first position that matches. -/
def searchFrom (re : Re) : List Char → Option Caps
  | [] =>
      match rmatch re [] with
      | r :: _ => some r.2
      | [] => none
  | c :: t =>
      match rmatch re (c :: t) with
      | r :: _ => some r.2
      | [] => searchFrom re t

/-- Captured text of group n (each group of the patterns below participates at
most once per match). -/
def capGroup (caps : Caps) (n : Nat) : Option (List Char) :=
  (caps.find? (fun x => decide (x.1 = n))).map (fun x => x.2)

def reSearch (re : Re) (s : String) : Option Caps := searchFrom re s.data

/-- m.group(1) of a search, as a string; none when the search fails. -/
def searchGroup1 (re : Re) (s : String) : Option String :=
  (reSearch re s).bind (fun caps => (capGroup caps 1).map (fun l => String.mk l))

/-- Literal character sequence as a regex. -/
def lit : List Char → Re
  | [] => .reps (fun _ => true) 0
  | c :: cs => .seq (.cls (fun x => decide (x = c))) (lit cs)

/-- Pattern at symbol.py:506, matching ABI: <q>(.*)<q> where <q> is a single
quote. -/
def abiRe : Re :=
  .seq (lit ("ABI: ".data ++ [quoteC]))
    (.seq (.grp 1 (.star isAnyC)) (.cls (fun c => decide (c = quoteC))))

/-- Pattern at symbol.py:507: hash, [0-9]+, [ \t]+, two dot characters,
[ \t]+, a group of exactly 8 or exactly 16 hex digits, then [ \t]+ or end. -/
def traceRe : Re :=
  .seq (.cls (fun c => decide (c = '#')))
  (.seq (.plus isDigitC)
  (.seq (.plus isWsC)
  (.seq (.cls isAnyC)
  (.seq (.cls isAnyC)
  (.seq (.plus isWsC)
  (.seq (.grp 1 (.alt (.reps isHexC 8) (.reps isHexC 16)))
        (.grp 2 (.alt (.plus isWsC) .eos))))))))

/-- Pattern at symbol.py:508: hash, [0-9]+, [ \t]+, the characters 0 and x, a
group of one or more hex digits, then [ \t]+. -/
def asanRe : Re :=
  .seq (.cls (fun c => decide (c = '#')))
  (.seq (.plus isDigitC)
  (.seq (.plus isWsC)
  (.seq (.cls (fun c => decide (c = '0')))
  (.seq (.cls (fun c => decide (c = 'x')))
  (.seq (.grp 1 (.plus isHexC)) (.plus isWsC))))))

/-- Alternation (aarch64|arm|mips|x86) of symbol.py:471. -/
def archAltRe : Re :=
  .alt (lit "aarch64".data) (.alt (lit "arm".data) (.alt (lit "mips".data) (lit "x86".data)))

/-- Pattern at symbol.py:471: a slash, the architecture alternation as group
1, a slash. -/
def toolchainRe : Re :=
  .seq (.cls (fun c => decide (c = '/')))
    (.seq (.grp 1 archAltRe) (.cls (fun c => decide (c = '/'))))

/-- The process environment, os.environ.get. -/
abbrev Env := String → Option String

/-- Python truthiness of an optional string: None and the empty string are
falsy. -/
def falsy : Option String → Bool
  | none => true
  | some s => decide (s = "")

/-- GetAbiFromToolchain (symbol.py:466-482): read the toolchain environment
variable, search it for /(aarch64|arm|mips|x86)/ and map the hit to an ABI
name, widening x86 and mips when 64 bits are requested. -/
def GetAbiFromToolchain (env : Env) (toolchain_var : String) (bits : Nat) : Option String :=
  match env toolchain_var with
  | none => none
  | some toolchain =>
    if toolchain = "" then none
    else
      match searchGroup1 toolchainRe toolchain with
      | some abi =>
        if abi = "aarch64" then some "arm64"
        else if bits = 64 then
          (if abi = "x86" then some "x86_64"
           else if abi = "mips" then some "mips64"
           else some abi)
        else some abi
      | none => none

/-- Get32BitArch (symbol.py:484-493): ANDROID_TOOLCHAIN_2ND_ARCH first, then
ANDROID_TOOLCHAIN, then the arm default. -/
def Get32BitArch (env : Env) : String :=
  let arch := GetAbiFromToolchain env "ANDROID_TOOLCHAIN_2ND_ARCH" 32
  let arch := if falsy arch then GetAbiFromToolchain env "ANDROID_TOOLCHAIN" 32 else arch
  if falsy arch then "arm" else arch.getD ""

/-- Get64BitArch (symbol.py:495-501): ANDROID_TOOLCHAIN, then the arm64
default. -/
def Get64BitArch (env : Env) : String :=
  let arch := GetAbiFromToolchain env "ANDROID_TOOLCHAIN" 64
  if falsy arch then "arm64" else arch.getD ""

/-- The scanning loop of SetAbi (symbol.py:510-534), carrying the current
value of the ARCH global.  An explicit ABI line is authoritative and stops the
scan; a standard frame line decides by 8 or 16 hex digits and stops; a
sanitizer frame line stops only when its address has more than 8 hex digits,
otherwise it records a provisional 32-bit architecture and keeps scanning. -/
def SetAbiLoop (env : Env) : List String → Option String → Option String
  | [], arch => arch
  | line :: rest, arch =>
    match searchGroup1 abiRe line with
    | some a => some a
    | none =>
      match searchGroup1 traceRe line with
      | some g => some (if g.length = 16 then Get64BitArch env else Get32BitArch env)
      | none =>
        match searchGroup1 asanRe line with
        | some g =>
          if 8 < g.length then some (Get64BitArch env)
          else SetAbiLoop env rest (some (Get32BitArch env))
        | none => SetAbiLoop env rest arch

/-- SetAbi (symbol.py:503-536).  Returns the architecture stored in ARCH, or
none for the could-not-determine-architecture exception raised when the loop
leaves ARCH falsy. -/
def SetAbi (env : Env) (lines : List String) : Option String :=
  let arch := SetAbiLoop env lines none
  if falsy arch then none else arch

/-- FormatSymbolWithOffset (symbol.py:460-463). -/
def FormatSymbolWithOffset (symbol : String) (offset : Int) : String :=
  if offset = 0 then symbol else symbol ++ "+" ++ toString offset

/-- StripPC (symbol.py:314-326): with the ARCH global equal to arm, clear the
Thumb bit of the program counter; otherwise return the address unchanged.  The
Python expression is addr & ~1; the script only ever applies it to the
nonnegative values of int(addr, 16), on which clearing the lowest bit equals
2 * (addr / 2). -/
def StripPC (arch : Option String) (addr : Nat) : Nat :=
  if arch = some "arm" then 2 * (addr / 2) else addr

/-!
ProcessCache (symbol.py:64-107).  A pooled channel is identified by the
spawned process id (a fresh natural number); the state carries the cmd2pipe
dictionary and the lru list (most recently used first) as association lists,
the next fresh process id, and the list of terminated process ids in
termination order (the observable effect of TerminateProcess).
-/

/-- Association-list lookup: first entry with the given key, like a Python
dict (whose keys are unique). -/
def lookupA {α β : Type} [DecidableEq α] : List (α × β) → α → Option β
  | [], _ => none
  | (k, v) :: t, key => if k = key then some v else lookupA t key

/-- Association-list update, dict-style: replace in place or append. -/
def insertA {α β : Type} [DecidableEq α] : List (α × β) → α → β → List (α × β)
  | [], k, v => [(k, v)]
  | (k1, v1) :: t, k, v => if k1 = k then (k, v) :: t else (k1, v1) :: insertA t k v

/-- State of one ProcessCache instance. -/
structure PoolState where
  cmd2pipe : List (List String × Nat)
  lru : List (List String × Nat)
  nextPid : Nat
  terminated : List Nat
deriving DecidableEq

def initPool : PoolState := { cmd2pipe := [], lru := [], nextPid := 0, terminated := [] }

/-- Max number of open pipes (symbol.py:69). -/
def PIPE_MAX_OPEN : Nat := 10

/-- One iteration of the eviction loop body (symbol.py:84-86): pop the last
(least recently used) lru entry, delete its command from cmd2pipe and
terminate its process. -/
def evictOnce (s : PoolState) : PoolState :=
  match s.lru.getLast? with
  | some cp =>
      { cmd2pipe := s.cmd2pipe.filter (fun i => i.1 ≠ cp.1),
        lru := s.lru.dropLast,
        nextPid := s.nextPid,
        terminated := s.terminated ++ [cp.2] }
  | none => s

/-- The while loop of GetProcess (symbol.py:83-86), fuelled: each iteration
shrinks the lru list by one, so the initial pool size bounds the iteration
count and the fuelled loop computes exactly the while loop. -/
def evictN : Nat → PoolState → PoolState
  | 0, s => s
  | n + 1, s => if PIPE_MAX_OPEN ≤ s.lru.length then evictN n (evictOnce s) else s

/-- The full eviction loop: while the pool is at or above the limit, evict. -/
def evictLoop (s : PoolState) : PoolState := evictN s.lru.length s

/-- GetProcess (symbol.py:71-92).  A cache hit moves the channel to the front
of the lru list; a miss first runs the eviction loop, then spawns a fresh
process and registers it.  Returns the channel (process id) and the new
state. -/
def GetProcess (s : PoolState) (cmd : List String) : Nat × PoolState :=
  match lookupA s.cmd2pipe cmd with
  | some pipe =>
      (pipe, { s with lru := (cmd, pipe) :: s.lru.filter (fun i => i.1 ≠ cmd) })
  | none =>
      let s1 := evictLoop s
      (s1.nextPid,
       { cmd2pipe := s1.cmd2pipe ++ [(cmd, s1.nextPid)],
         lru := (cmd, s1.nextPid) :: s1.lru,
         nextPid := s1.nextPid + 1,
         terminated := s1.terminated })

/-- Run a sequence of GetProcess calls from the initial empty pool. -/
def runPool (cmds : List (List String)) : PoolState :=
  cmds.foldl (fun s c => (GetProcess s c).2) initPool

/-- KillAllProcesses (symbol.py:103-107): terminates every pooled process,
but the two trailing assignments in the source bind fresh LOCAL variables
named cmd2pipe and lru, not the object attributes, so the pool state itself
is left unchanged. -/
def KillAllProcesses (s : PoolState) : PoolState :=
  { s with terminated := s.terminated ++ s.lru.map (fun i => i.2) }

/-- CloseAllPipes (symbol.py:116-118): kill both pooled caches. -/
def CloseAllPipes (p : PoolState × PoolState) : PoolState × PoolState :=
  (KillAllProcesses p.1, KillAllProcesses p.2)

/-- Invariant of a reachable pool state: the pool is within the limit, no
command is pooled twice, and cmd2pipe holds a command exactly when the lru
list does. -/
def PoolInv (s : PoolState) : Prop :=
  s.lru.length ≤ PIPE_MAX_OPEN ∧ (s.lru.map (fun i => i.1)).Nodup ∧
  ∀ c, lookupA s.cmd2pipe c = none ↔ c ∉ s.lru.map (fun i => i.1)

/-!
Symbol resolution driver (symbol.py:161-311 and 329-430).  The filesystem,
the symbolizer pipe and the objdump subprocess are oracles in a World value;
the two module-level caches are explicit state.
-/

/-- One record of the line resolver: source symbol and source location, each
possibly absent. -/
abbrev LineRec := Option String × Option String

/-- Result of writing one address to the llvm-symbolizer pipe: either the
response lines the read loop consumes, or an IOError with a message. -/
inductive QueryResult where
  | ok (lines : List String)
  | ioError (msg : String)
deriving DecidableEq

/-- External collaborators of the driver. -/
structure World where
  /-- SYMBOLS_DIR (symbol.py:47). -/
  symbolsDir : String
  /-- os.path.exists. -/
  fileExists : String → Bool
  /-- os.path.isdir. -/
  isDir : String → Bool
  /-- The llvm-symbolizer pipe: for a symbols path and an address, the
  response lines read back (including the blank line elicited by the injected
  sentinel), or an IO failure. -/
  lineQuery : String → String → QueryResult
  /-- Abstraction of the llvm-objdump subprocess and its disassembly scan
  (symbol.py:371-428): for a symbols path and the sorted uncached addresses,
  the (address, (symbol, offset)) pairs the scan records. -/
  objdumpScan : String → List String → List (String × (String × Int))

/-- The two per-library module caches (symbol.py:58-59). -/
structure Caches where
  addr2line : List (String × List (String × List LineRec))
  objdump : List (String × List (String × (String × Int)))

def initCaches : Caches := { addr2line := [], objdump := [] }

/-- Python str.strip whitespace set. -/
def pyWsC (c : Char) : Bool :=
  decide (c = ' ') || decide (c = '\t') || decide (c = '\n') || decide (c = '\r') ||
  decide (c = Char.ofNat 11) || decide (c = Char.ofNat 12)

/-- Python str.strip. -/
def pyStrip (s : String) : String :=
  String.mk (((s.data.dropWhile pyWsC).reverse.dropWhile pyWsC).reverse)

/-- The read loop of CallLlvmSymbolizerForSet (symbol.py:291-305): consume
response lines in (symbol, location) pairs until a line that strips to empty
(or end of stream, where readline yields the empty string). -/
def readRecords : List String → List (String × String)
  | [] => []
  | [sym] => if pyStrip sym = "" then [] else [(pyStrip sym, "")]
  | sym :: loc :: rest =>
      if pyStrip sym = "" then [] else (pyStrip sym, pyStrip loc) :: readRecords rest

/-- The per-address body of the query loop (symbol.py:287-310): on success
the parsed records, on an IOError the degraded record whose location is the
library name without its leading slash, the error marker and the message. -/
def queryRecords (w : World) (symbols lib addr : String) : List LineRec :=
  match w.lineQuery symbols addr with
  | .ok ls => (readRecords ls).map (fun r => (some r.1, some r.2))
  | .ioError e => [(none, some (lib.drop 1 ++ "  ***Error: " ++ e))]

/-- Insertion of a string into a sorted list (Python sorted, ascending). -/
def insertSorted (x : String) : List String → List String
  | [] => [x]
  | y :: t => if x ≤ y then x :: y :: t else y :: insertSorted x t

/-- Python sorted on a list of strings. -/
def insSort : List String → List String
  | [] => []
  | x :: t => insertSorted x (insSort t)

/-- The uncached tail of CallLlvmSymbolizerForSet (symbol.py:273-311): locate
the symbols file (symbols-repository prefix first, then the literal path,
else no data), refuse directories, then query each remaining address and
record the outcome in both the result and the per-library cache. -/
def symbolizeUncached (w : World) (cs : Caches) (lib : String)
    (result0 : List (String × List LineRec)) (addrs : List String)
    (addr_cache : List (String × List LineRec)) :
    Option (List (String × List LineRec)) × Caches :=
  let symbols0 := w.symbolsDir ++ lib
  if !w.fileExists symbols0 && !w.fileExists lib then (none, cs)
  else
    let symbols := if w.fileExists symbols0 then symbols0 else lib
    if w.isDir symbols then (none, cs)
    else
      let newEntries := addrs.map (fun a => (a, queryRecords w symbols lib a))
      (some (result0 ++ newEntries),
       { cs with addr2line := insertA cs.addr2line lib (addr_cache ++ newEntries) })

/-- CallLlvmSymbolizerForSet (symbol.py:232-311).  An empty library is no
data; a cached library first satisfies every address it can from the
per-library cache (the pop/append loop at 258-264 retains the uncached
addresses in sorted order) and returns early when nothing is left; an unknown
library registers an empty cache entry before the symbols file is looked
up. -/
def CallLlvmSymbolizerForSet (w : World) (cs : Caches) (lib : String)
    (unique_addrs : List String) : Option (List (String × List LineRec)) × Caches :=
  if lib = "" then (none, cs)
  else
    let addrs := insSort unique_addrs
    match lookupA cs.addr2line lib with
    | some addr_cache =>
        let result0 := addrs.filterMap (fun a => (lookupA addr_cache a).map (fun r => (a, r)))
        let rest := addrs.filter (fun a => (lookupA addr_cache a).isNone)
        if rest.isEmpty then (some result0, cs)
        else symbolizeUncached w cs lib result0 rest addr_cache
    | none =>
        symbolizeUncached w { cs with addr2line := insertA cs.addr2line lib [] }
          lib [] addrs []

/-- The uncached tail of CallObjdumpForSet (symbol.py:365-430), with the
subprocess and scan abstracted by the objdumpScan oracle.  Note the source
has no directory check here. -/
def objdumpUncached (w : World) (cs : Caches) (lib : String)
    (result0 : List (String × (String × Int))) (addrs : List String)
    (addr_cache : List (String × (String × Int))) :
    Option (List (String × (String × Int))) × Caches :=
  let symbols0 := w.symbolsDir ++ lib
  if !w.fileExists symbols0 && !w.fileExists lib then (none, cs)
  else
    let symbols := if w.fileExists symbols0 then symbols0 else lib
    let found := w.objdumpScan symbols addrs
    (some (result0 ++ found),
     { cs with objdump := insertA cs.objdump lib (addr_cache ++ found) })

/-- CallObjdumpForSet (symbol.py:329-430), cache discipline identical to the
line resolver but over its own cache. -/
def CallObjdumpForSet (w : World) (cs : Caches) (lib : String)
    (unique_addrs : List String) : Option (List (String × (String × Int))) × Caches :=
  if lib = "" then (none, cs)
  else
    let addrs := insSort unique_addrs
    match lookupA cs.objdump lib with
    | some addr_cache =>
        let result0 := addrs.filterMap (fun a => (lookupA addr_cache a).map (fun r => (a, r)))
        let rest := addrs.filter (fun a => (lookupA addr_cache a).isNone)
        if rest.isEmpty then (some result0, cs)
        else objdumpUncached w cs lib result0 rest addr_cache
    | none =>
        objdumpUncached w { cs with objdump := insertA cs.objdump lib [] } lib [] addrs []

/-- One merged record of the driver: source symbol, source location, object
symbol with offset. -/
abbrev Triple := Option String × Option String × Option String

/-- SymbolInformationForSet (symbol.py:184-229).  No data from either
sub-resolver (a None or an empty dictionary, both falsy in the source checks)
makes the whole call return None; otherwise every requested address is merged
into a non-empty record list. -/
def SymbolInformationForSet (w : World) (cs : Caches) (lib : String)
    (unique_addrs : List String) : Option (List (String × List Triple)) × Caches :=
  if lib = "" then (none, cs)
  else
    match CallLlvmSymbolizerForSet w cs lib unique_addrs with
    | (none, cs1) => (none, cs1)
    | (some addr_to_line, cs1) =>
      if addr_to_line.isEmpty then (none, cs1)
      else
        match CallObjdumpForSet w cs1 lib unique_addrs with
        | (none, cs2) => (none, cs2)
        | (some addr_to_objdump, cs2) =>
          if addr_to_objdump.isEmpty then (none, cs2)
          else
            (some (unique_addrs.map (fun addr =>
              let source_info :=
                match lookupA addr_to_line addr with
                | some l => if l.isEmpty then [((none : Option String), (none : Option String))] else l
                | none => [(none, none)]
              let oswo : Option String :=
                match lookupA addr_to_objdump addr with
                | some so => some (FormatSymbolWithOffset so.1 so.2)
                | none => none
              (addr, source_info.map (fun r => (r.1, r.2, oswo))))), cs2)

/-- SymbolInformation (symbol.py:161-181): the single-address entry point.
The source expression (info and info.get(addr)) or [(None, None, None)] falls
back to the all-None record whenever the batch result or the per-address list
is falsy. -/
def SymbolInformation (w : World) (cs : Caches) (lib : String) (addr : String) :
    List Triple × Caches :=
  match SymbolInformationForSet w cs lib [addr] with
  | (none, cs1) => ([(none, none, none)], cs1)
  | (some info, cs1) =>
    if info.isEmpty then ([(none, none, none)], cs1)
    else
      match lookupA info addr with
      | none => ([(none, none, none)], cs1)
      | some l => (if l.isEmpty then [(none, none, none)] else l, cs1)

/-! Concrete environments and worlds used by the witnesses and
counterexamples. -/

/-- Environment with no toolchain variables set. -/
def envNone : Env := fun _ => none

/-- Environment carrying the x86 toolchain hint of the source tests. -/
def envX86 : Env := fun v =>
  if v = "ANDROID_TOOLCHAIN" then some "linux-x86/x86/arm-linux-androideabi-4.9/bin" else none

/-- World in which no filesystem path exists. -/
def wMissing : World :=
  { symbolsDir := "/out/symbols", fileExists := fun _ => false, isDir := fun _ => false,
    lineQuery := fun _ _ => .ok [], objdumpScan := fun _ _ => [] }

/-- World in which the symbols file of /liba.so exists and the symbolizer
pipe fails with an IOError on address 10 and answers address 20 normally. -/
def wErr : World :=
  { symbolsDir := "/out/symbols",
    fileExists := fun s => s = "/out/symbols/liba.so", isDir := fun _ => false,
    lineQuery := fun _ a => if a = "10" then .ioError "broken pipe" else .ok ["fn", "f.c:12", ""],
    objdumpScan := fun _ addrs => addrs.map (fun a => (a, ("fn", (4 : Int)))) }

/-! Lemmas about the regex engine on the patterns of symbol.py. -/

lemma rmatch_seq_eq (a b : Re) (s : List Char) :
    rmatch (.seq a b) s =
      (rmatch a s).flatMap (fun pr => (rmatch b pr.1).map (fun qr => (qr.1, pr.2 ++ qr.2))) := rfl

lemma rmatch_alt_eq (a b : Re) (s : List Char) :
    rmatch (.alt a b) s = rmatch a s ++ rmatch b s := rfl

lemma rmatch_grp_eq (n : Nat) (a : Re) (s : List Char) :
    rmatch (.grp n a) s =
      (rmatch a s).map (fun pr => (pr.1, (n, s.take (s.length - pr.1.length)) :: pr.2)) := rfl

lemma rmatch_cls_cons (p : Char → Bool) (c : Char) (t : List Char) :
    rmatch (.cls p) (c :: t) = if p c then [(t, [])] else [] := rfl

lemma mem_rmatch_lit {cs : List Char} {s r : List Char} {g : Caps}
    (h : (r, g) ∈ rmatch (lit cs) s) :
    g = [] ∧ s.take cs.length = cs ∧ r = s.drop cs.length := by
  induction cs generalizing s r g with
  | nil =>
    simp [lit, rmatch] at h
    simp [h.1, h.2]
  | cons c cs ih =>
    cases s with
    | nil => simp [lit, rmatch] at h
    | cons d t =>
      rw [lit, rmatch_seq_eq, rmatch_cls_cons] at h
      by_cases hdc : d = c
      · rw [if_pos (by simp [hdc])] at h
        simp only [List.flatMap_cons, List.flatMap_nil, List.append_nil, List.mem_map] at h
        obtain ⟨qr, hqr, heq⟩ := h
        obtain ⟨hg1, htake, hdrop⟩ := ih (show (qr.1, qr.2) ∈ rmatch (lit cs) t from hqr)
        have hr : r = qr.1 := by cases heq; rfl
        have hg : g = qr.2 := by cases heq; rfl
        refine ⟨by rw [hg, hg1], ?_, ?_⟩
        · simp [List.take, hdc, htake]
        · simp [List.drop, hr, hdrop]
      · rw [if_neg (by simp [hdc])] at h
        simp at h

lemma mem_rmatch_grp_archAlt {s r : List Char} {caps : Caps}
    (h : (r, caps) ∈ rmatch (.grp 1 archAltRe) s) :
    ∃ cs, caps = [(1, cs)] ∧
      (cs = "aarch64".data ∨ cs = "arm".data ∨ cs = "mips".data ∨ cs = "x86".data) := by
  rw [rmatch_grp_eq] at h
  simp only [List.mem_map] at h
  obtain ⟨⟨r1, g1⟩, hmem, heq⟩ := h
  rw [archAltRe, rmatch_alt_eq, rmatch_alt_eq, rmatch_alt_eq] at hmem
  simp only [List.mem_append] at hmem
  have key : ∀ cs : List Char, (r1, g1) ∈ rmatch (lit cs) s →
      g1 = [] ∧ s.take (s.length - r1.length) = cs := by
    intro cs h1
    obtain ⟨hg1, htake, hdrop⟩ := mem_rmatch_lit h1
    have hlen : cs.length ≤ s.length := by
      by_contra hlt
      push_neg at hlt
      have := congrArg List.length htake
      simp [List.length_take] at this
      omega
    refine ⟨hg1, ?_⟩
    rw [hdrop, List.length_drop, Nat.sub_sub_self hlen, htake]
  rcases hmem with h1 | h1 | h1 | h1
  · obtain ⟨hg1, htake⟩ := key _ h1
    exact ⟨_, by cases heq; rw [hg1], Or.inl htake⟩
  · obtain ⟨hg1, htake⟩ := key _ h1
    exact ⟨_, by cases heq; rw [hg1], Or.inr (Or.inl htake)⟩
  · obtain ⟨hg1, htake⟩ := key _ h1
    exact ⟨_, by cases heq; rw [hg1], Or.inr (Or.inr (Or.inl htake))⟩
  · obtain ⟨hg1, htake⟩ := key _ h1
    exact ⟨_, by cases heq; rw [hg1], Or.inr (Or.inr (Or.inr htake))⟩

/-! Lemmas about architecture detection. -/

lemma not_falsy_getD {o : Option String} (h : falsy o = false) : o.getD "" ≠ "" := by
  cases o with
  | none => simp [falsy] at h
  | some s =>
    simp [falsy] at h
    simpa using h

lemma Get32BitArch_ne_empty (env : Env) : Get32BitArch env ≠ "" := by
  unfold Get32BitArch
  set a2 := if falsy (GetAbiFromToolchain env "ANDROID_TOOLCHAIN_2ND_ARCH" 32) then
      GetAbiFromToolchain env "ANDROID_TOOLCHAIN" 32
    else GetAbiFromToolchain env "ANDROID_TOOLCHAIN_2ND_ARCH" 32 with ha2
  by_cases h : falsy a2
  · simp [h]
  · rw [if_neg (by simp [h])]
    exact not_falsy_getD (by simpa using h)

lemma Get64BitArch_ne_empty (env : Env) : Get64BitArch env ≠ "" := by
  unfold Get64BitArch
  by_cases h : falsy (GetAbiFromToolchain env "ANDROID_TOOLCHAIN" 64)
  · simp [h]
  · rw [if_neg (by simp [h])]
    exact not_falsy_getD (by simpa using h)

lemma setAbiLoop_skip (env : Env) (pre ls : List String)
    (hpre : ∀ p ∈ pre, searchGroup1 abiRe p = none ∧ searchGroup1 traceRe p = none ∧
      searchGroup1 asanRe p = none) :
    ∀ arch, SetAbiLoop env (pre ++ ls) arch = SetAbiLoop env ls arch := by
  induction pre with
  | nil => intro arch; rfl
  | cons p pre ih =>
    intro arch
    obtain ⟨h1, h2, h3⟩ := hpre p (List.mem_cons_self _ _)
    rw [List.cons_append, SetAbiLoop]
    simp only [h1, h2, h3]
    exact ih (fun q hq => hpre q (List.mem_cons_of_mem _ hq)) arch

lemma setAbiLoop_to64 (env : Env) (pre : List String) (l : String) (rest : List String)
    (g : String)
    (hpre : ∀ p ∈ pre, searchGroup1 abiRe p = none ∧ searchGroup1 traceRe p = none)
    (habi : searchGroup1 abiRe l = none) (htr : searchGroup1 traceRe l = none)
    (hasan : searchGroup1 asanRe l = some g) (hg : 8 < g.length) :
    ∀ arch, SetAbiLoop env (pre ++ l :: rest) arch = some (Get64BitArch env) := by
  induction pre with
  | nil =>
    intro arch
    rw [List.nil_append, SetAbiLoop]
    simp only [habi, htr, hasan]
    rw [if_pos hg]
  | cons p pre ih =>
    intro arch
    obtain ⟨h1, h2⟩ := hpre p (List.mem_cons_self _ _)
    rw [List.cons_append, SetAbiLoop]
    simp only [h1, h2]
    cases h3 : searchGroup1 asanRe p with
    | none => exact ih (fun q hq => hpre q (List.mem_cons_of_mem _ hq)) arch
    | some g2 =>
      dsimp only
      by_cases hg2 : 8 < g2.length
      · rw [if_pos hg2]
      · rw [if_neg hg2]
        exact ih (fun q hq => hpre q (List.mem_cons_of_mem _ hq)) (some (Get32BitArch env))

/-! Claim theorems. -/

/-- C4: for a line list containing a provisional sanitizer frame line (at
most 8 hex address digits) followed by a conclusive one (more than 8 hex
digits), with no explicit ABI line and no standard frame line up to and
including the conclusive line, SetAbi returns the 64-bit architecture: the
confirmed 64-bit signal overrides the earlier provisional 32-bit signal. -/
theorem c4_sanitizer_64bit_wins (env : Env) (pre : List String) (l64 : String)
    (rest : List String) (g g32 : String) (l32 : String)
    (hpre : ∀ p ∈ pre, searchGroup1 abiRe p = none ∧ searchGroup1 traceRe p = none)
    (hl32 : l32 ∈ pre) (hasan32 : searchGroup1 asanRe l32 = some g32)
    (hg32 : g32.length ≤ 8)
    (habi : searchGroup1 abiRe l64 = none) (htr : searchGroup1 traceRe l64 = none)
    (hasan : searchGroup1 asanRe l64 = some g) (hg : 8 < g.length) :
    SetAbi env (pre ++ l64 :: rest) = some (Get64BitArch env) := by
  unfold SetAbi
  rw [setAbiLoop_to64 env pre l64 rest g hpre habi htr hasan hg none]
  rw [if_neg (by simp [falsy, Get64BitArch_ne_empty env])]

/-- C4 witness: the concrete pair of sanitizer lines from the source tests,
with the x86 toolchain hint, yields x86_64. -/
theorem c4_witness :
    SetAbi envX86
      ["#12 0x5d33bf  (/system/lib/libclang_rt.asan-arm-android.so+0x823bf)",
       "#12 0x11b35d33bf  (/system/lib/libclang_rt.asan-arm-android.so+0x823bf)"] =
      some "x86_64" := by
  have h := c4_sanitizer_64bit_wins envX86
      ["#12 0x5d33bf  (/system/lib/libclang_rt.asan-arm-android.so+0x823bf)"]
      "#12 0x11b35d33bf  (/system/lib/libclang_rt.asan-arm-android.so+0x823bf)"
      [] "11b35d33bf" "5d33bf"
      "#12 0x5d33bf  (/system/lib/libclang_rt.asan-arm-android.so+0x823bf)"
      (by decide) (by decide) (by decide) (by decide) (by decide) (by decide)
      (by decide) (by decide)
  rw [show Get64BitArch envX86 = "x86_64" from by decide] at h
  exact h

/-- C5: when the first line matching any pattern is a standard frame line
(and it has no explicit ABI), SetAbi returns the 32-bit toolchain-derived
architecture for an 8-hex-digit address and the 64-bit one for a 16-hex-digit
address, regardless of the lines after it; with no toolchain hints the
defaults are arm and arm64. -/
theorem c5_frame_line_arch (env : Env) (pre : List String) (l : String)
    (rest : List String) (g : String)
    (hpre : ∀ p ∈ pre, searchGroup1 abiRe p = none ∧ searchGroup1 traceRe p = none ∧
      searchGroup1 asanRe p = none)
    (habi : searchGroup1 abiRe l = none)
    (htr : searchGroup1 traceRe l = some g) :
    SetAbi env (pre ++ l :: rest) =
      some (if g.length = 16 then Get64BitArch env else Get32BitArch env) ∧
    ((∀ v, env v = none) → Get32BitArch env = "arm" ∧ Get64BitArch env = "arm64") := by
  constructor
  · unfold SetAbi
    rw [setAbiLoop_skip env pre (l :: rest) hpre none, SetAbiLoop]
    simp only [habi, htr]
    have hne : (if g.length = 16 then Get64BitArch env else Get32BitArch env) ≠ "" := by
      by_cases h16 : g.length = 16
      · simp [h16, Get64BitArch_ne_empty env]
      · simp [h16, Get32BitArch_ne_empty env]
    simp [falsy, hne]
  · intro hv
    constructor
    · unfold Get32BitArch GetAbiFromToolchain
      simp [hv, falsy]
    · unfold Get64BitArch GetAbiFromToolchain
      simp [hv, falsy]

/-- C5 witness: the concrete 8-digit and 16-digit frame lines of the source
tests, with no toolchain hint, give arm and arm64. -/
theorem c5_witness :
    SetAbi envNone ["#00 pc 000374e0"] = some "arm" ∧
    SetAbi envNone ["#00 pc 00000000000374e0"] = some "arm64" := by
  constructor
  · have h := (c5_frame_line_arch envNone [] "#00 pc 000374e0" [] "000374e0"
      (by simp) (by decide) (by decide)).1
    rw [show (if ("000374e0" : String).length = 16 then Get64BitArch envNone
        else Get32BitArch envNone) = "arm" from by decide] at h
    exact h
  · have h := (c5_frame_line_arch envNone [] "#00 pc 00000000000374e0" [] "00000000000374e0"
      (by simp) (by decide) (by decide)).1
    rw [show (if ("00000000000374e0" : String).length = 16 then Get64BitArch envNone
        else Get32BitArch envNone) = "arm64" from by decide] at h
    exact h

/-- C8 counterexample: a line list whose only pattern hit is a
non-conclusive sanitizer match (address of at most 8 hex digits) satisfies
the claim hypothesis, yet SetAbi does not raise: it returns the provisional
32-bit architecture. -/
theorem c8_counterexample :
    searchGroup1 abiRe "#1 0xab  x" = none ∧
    searchGroup1 traceRe "#1 0xab  x" = none ∧
    searchGroup1 asanRe "#1 0xab  x" = some "ab" ∧
    SetAbi envNone ["#1 0xab  x"] = some "arm" := by
  exact ⟨by decide, by decide, by decide, by decide⟩

/-- C8 amended: when no line matches the explicit-ABI pattern, the standard
frame pattern, or the sanitizer pattern at all (conclusively or
provisionally) - in particular for the empty list - SetAbi raises the fatal
could-not-determine-architecture exception (modelled as none). -/
theorem c8_no_match_raises (env : Env) (lines : List String)
    (h : ∀ l ∈ lines, searchGroup1 abiRe l = none ∧ searchGroup1 traceRe l = none ∧
      searchGroup1 asanRe l = none) :
    SetAbi env lines = none := by
  unfold SetAbi
  have hloop := setAbiLoop_skip env lines [] h none
  rw [List.append_nil] at hloop
  rw [hloop]
  rfl

/-- C8 witness: a line matching nothing, and the empty list, both raise. -/
theorem c8_witness :
    SetAbi envNone ["hello world"] = none ∧ SetAbi envNone [] = none := by
  constructor
  · exact c8_no_match_raises envNone ["hello world"] (by decide)
  · exact c8_no_match_raises envNone [] (by simp)

/-- C9: FormatSymbolWithOffset returns the symbol alone at offset 0 and the
symbol, a plus sign and the decimal offset otherwise. -/
theorem c9_format_offset (symbol : String) (offset : Int) :
    (offset = 0 → FormatSymbolWithOffset symbol offset = symbol) ∧
    (offset ≠ 0 → FormatSymbolWithOffset symbol offset = symbol ++ "+" ++ toString offset) := by
  constructor
  · intro h
    simp [FormatSymbolWithOffset, h]
  · intro h
    simp [FormatSymbolWithOffset, h]

/-- C9 witness: offset 12 renders as symbol+12, offset 0 as the symbol. -/
theorem c9_witness :
    FormatSymbolWithOffset "symbol" 12 = "symbol+12" ∧
    FormatSymbolWithOffset "f" 0 = "f" := by
  constructor
  · have h := (c9_format_offset "symbol" 12).2 (by decide)
    rw [h]
    decide
  · exact (c9_format_offset "f" 0).1 rfl

/-- C10: StripPC clears the lowest address bit exactly when the architecture
is arm, and returns the address unchanged for every other architecture,
including the unset state. -/
theorem c10_strip_pc (arch : Option String) (addr : Nat) :
    (arch = some "arm" →
      StripPC arch addr = addr - addr % 2 ∧ StripPC arch addr % 2 = 0 ∧
      (addr % 2 = 0 → StripPC arch addr = addr) ∧
      (addr % 2 = 1 → StripPC arch addr + 1 = addr)) ∧
    (arch ≠ some "arm" → StripPC arch addr = addr) := by
  constructor
  · intro h
    simp only [StripPC, if_pos h]
    omega
  · intro h
    simp [StripPC, h]

/-- C10 witness: address 5 is stripped to 4 under arm and left unchanged
under arm64 and under the unset architecture. -/
theorem c10_witness :
    StripPC (some "arm") 5 = 4 ∧ StripPC (some "arm64") 5 = 5 ∧ StripPC none 5 = 5 := by
  refine ⟨?_, ?_, ?_⟩
  · have h := ((c10_strip_pc (some "arm") 5).1 rfl).1
    simpa using h
  · exact (c10_strip_pc (some "arm64") 5).2 (by decide)
  · exact (c10_strip_pc none 5).2 (by decide)

/-! Association-list and sorting lemmas for the driver claims. -/

lemma mem_insertSorted (x a : String) (l : List String) :
    a ∈ insertSorted x l ↔ a = x ∨ a ∈ l := by
  induction l with
  | nil => simp [insertSorted]
  | cons y t ih =>
    rw [insertSorted]
    by_cases h : x ≤ y
    · simp [h]
    · rw [if_neg h]
      simp only [List.mem_cons, ih]
      tauto

lemma mem_insSort (a : String) (l : List String) : a ∈ insSort l ↔ a ∈ l := by
  induction l with
  | nil => simp [insSort]
  | cons x t ih =>
    rw [insSort, mem_insertSorted, ih]
    simp

lemma lookupA_map_self {β : Type} (f : String → β) (l : List String) (a : String)
    (h : a ∈ l) : lookupA (l.map (fun b => (b, f b))) a = some (f a) := by
  induction l with
  | nil => cases h
  | cons x t ih =>
    rw [List.map_cons, lookupA]
    by_cases hx : x = a
    · rw [if_pos hx, hx]
    · rw [if_neg hx]
      exact ih ((List.mem_cons.mp h).resolve_left (fun he => hx he.symm))

lemma insertA_insertA {α β : Type} [DecidableEq α] (l : List (α × β)) (k : α) (v v1 : β) :
    insertA (insertA l k v) k v1 = insertA l k v1 := by
  induction l with
  | nil => simp [insertA]
  | cons p t ih =>
    rw [insertA]
    by_cases h : p.1 = k
    · rw [if_pos h, insertA, if_pos rfl, insertA, if_pos h]
    · rw [if_neg h, insertA, insertA, if_neg h, if_neg h, ih]

lemma lookupA_insertA_self {α β : Type} [DecidableEq α] (l : List (α × β)) (k : α) (v : β) :
    lookupA (insertA l k v) k = some v := by
  induction l with
  | nil => simp [insertA, lookupA]
  | cons p t ih =>
    rw [insertA]
    by_cases h : p.1 = k
    · rw [if_pos h, lookupA, if_pos rfl]
    · rw [if_neg h, lookupA, if_neg h]
      exact ih

/-- C6: the single-address entry point always returns a non-empty record
list, and returns exactly the all-None record when the batch lookup yields
nothing for the address (a None batch result, an empty batch result, a
missing address, or an empty per-address list). -/
theorem c6_single_address_nonempty (w : World) (cs : Caches) (lib addr : String) :
    (SymbolInformation w cs lib addr).1 ≠ [] ∧
    ((SymbolInformationForSet w cs lib [addr]).1 = none →
      (SymbolInformation w cs lib addr).1 = [(none, none, none)]) ∧
    (∀ info, (SymbolInformationForSet w cs lib [addr]).1 = some info →
      (lookupA info addr = none ∨ lookupA info addr = some []) →
      (SymbolInformation w cs lib addr).1 = [(none, none, none)]) := by
  unfold SymbolInformation
  cases h : SymbolInformationForSet w cs lib [addr] with
  | mk res cs1 =>
    cases res with
    | none =>
      refine ⟨by simp, fun _ => by simp, fun info hinfo => ?_⟩
      simp at hinfo
    | some info0 =>
      refine ⟨?_, fun hnone => by simp at hnone, fun info hinfo hlk => ?_⟩
      · by_cases hie : info0.isEmpty
        · simp [hie]
        · simp only [hie, if_false]
          cases hl : lookupA info0 addr with
          | none => simp
          | some l =>
            by_cases hle : l.isEmpty
            · simp [hle]
            · simp only [hle, if_false]
              simpa [List.isEmpty_iff] using hle
      · have hinfo0 : info = info0 := by simpa using hinfo.symm
        subst hinfo0
        by_cases hie : info.isEmpty
        · simp [hie]
        · rcases hlk with hlk | hlk <;> simp [hie, hlk]

/-- C6 witness: with no batch data (missing file), the single-address entry
point returns the all-None record. -/
theorem c6_witness :
    (SymbolInformation wMissing initCaches "/system/lib/libfoo.so" "1234abcd").1 =
      [(none, none, none)] := by
  exact (c6_single_address_nonempty wMissing initCaches "/system/lib/libfoo.so" "1234abcd").2.1
    (by decide)

/-- C1 counterexample: for an uncached library whose file exists neither
under the symbols-repository prefix nor as a literal path, the batch entry
point returns none - it does not return a mapping binding each address to an
all-None record, as the claim states. -/
theorem c1_counterexample :
    (SymbolInformationForSet wMissing initCaches "/system/lib/libfoo.so"
      ["1234abcd", "5678"]).1 = none ∧
    ¬ ∃ m, (SymbolInformationForSet wMissing initCaches "/system/lib/libfoo.so"
      ["1234abcd", "5678"]).1 = some m ∧
      lookupA m "1234abcd" = some [(none, none, none)] ∧
      lookupA m "5678" = some [(none, none, none)] := by
  have h : (SymbolInformationForSet wMissing initCaches "/system/lib/libfoo.so"
      ["1234abcd", "5678"]).1 = none := by decide
  refine ⟨h, ?_⟩
  rintro ⟨m, hm, -⟩
  rw [h] at hm
  cases hm

/-- C1 amended: for a non-empty library path not yet in the line cache whose
file exists neither under the symbols-repository prefix nor as a literal
path, SymbolInformationForSet returns none (no mapping) for every address
set; the all-None records are synthesized only by the single-address
SymbolInformation wrapper. -/
theorem c1_missing_library_returns_none (w : World) (cs : Caches) (lib : String)
    (addrs : List String)
    (hlib : lib ≠ "") (hcache : lookupA cs.addr2line lib = none)
    (h1 : w.fileExists (w.symbolsDir ++ lib) = false)
    (h2 : w.fileExists lib = false) :
    (SymbolInformationForSet w cs lib addrs).1 = none := by
  have hcall : CallLlvmSymbolizerForSet w cs lib addrs =
      (none, { cs with addr2line := insertA cs.addr2line lib [] }) := by
    unfold CallLlvmSymbolizerForSet symbolizeUncached
    simp only [if_neg hlib, hcache]
    simp only [h1, h2]
    simp
  unfold SymbolInformationForSet
  rw [if_neg hlib, hcall]

/-- C1 witness for the amended claim. -/
theorem c1_witness :
    (SymbolInformationForSet wMissing initCaches "/liba.so" ["10", "20"]).1 = none := by
  exact c1_missing_library_returns_none wMissing initCaches "/liba.so" ["10", "20"]
    (by decide) (by decide) (by decide) (by decide)

/-- C7: when the symbolizer pipe raises an IOError for one address of a
fresh library batch, the driver records for that address the single degraded
record whose location is the library name (leading slash stripped), the
error marker and the message; it stores the same record in the per-library
cache, and still produces an entry for every requested address. -/
theorem c7_io_error_degraded (w : World) (cs : Caches) (lib : String)
    (addrs : List String) (a e : String)
    (hlib : lib ≠ "") (hcache : lookupA cs.addr2line lib = none)
    (hex : w.fileExists (w.symbolsDir ++ lib) = true)
    (hdir : w.isDir (w.symbolsDir ++ lib) = false)
    (ha : a ∈ addrs)
    (herr : w.lineQuery (w.symbolsDir ++ lib) a = .ioError e) :
    ∃ m, (CallLlvmSymbolizerForSet w cs lib addrs).1 = some m ∧
      lookupA m a = some [(none, some (lib.drop 1 ++ "  ***Error: " ++ e))] ∧
      (∀ b ∈ addrs, (lookupA m b).isSome) ∧
      ∃ libCache,
        lookupA (CallLlvmSymbolizerForSet w cs lib addrs).2.addr2line lib = some libCache ∧
        lookupA libCache a = some [(none, some (lib.drop 1 ++ "  ***Error: " ++ e))] := by
  have hm1 : (CallLlvmSymbolizerForSet w cs lib addrs).1 =
      some ((insSort addrs).map (fun b => (b, queryRecords w (w.symbolsDir ++ lib) lib b))) := by
    unfold CallLlvmSymbolizerForSet symbolizeUncached
    simp only [if_neg hlib, hcache]
    simp only [hex]
    simp [hdir]
  have hm2 : (CallLlvmSymbolizerForSet w cs lib addrs).2.addr2line =
      insertA cs.addr2line lib
        ((insSort addrs).map (fun b => (b, queryRecords w (w.symbolsDir ++ lib) lib b))) := by
    unfold CallLlvmSymbolizerForSet symbolizeUncached
    simp only [if_neg hlib, hcache]
    simp only [hex]
    simp [hdir, insertA_insertA]
  have hqa : queryRecords w (w.symbolsDir ++ lib) lib a =
      [(none, some (lib.drop 1 ++ "  ***Error: " ++ e))] := by
    unfold queryRecords
    rw [herr]
  refine ⟨(insSort addrs).map (fun b => (b, queryRecords w (w.symbolsDir ++ lib) lib b)),
    hm1, ?_, ?_, ?_⟩
  · rw [lookupA_map_self _ _ _ ((mem_insSort a addrs).mpr ha), hqa]
  · intro b hb
    rw [lookupA_map_self _ _ _ ((mem_insSort b addrs).mpr hb)]
    rfl
  · refine ⟨(insSort addrs).map (fun b => (b, queryRecords w (w.symbolsDir ++ lib) lib b)),
      ?_, ?_⟩
    · rw [hm2]
      exact lookupA_insertA_self _ _ _
    · rw [lookupA_map_self _ _ _ ((mem_insSort a addrs).mpr ha), hqa]

/-- C7 witness: the concrete error world, queried for two addresses of which
one hits the broken pipe. -/
theorem c7_witness :
    ∃ m, (CallLlvmSymbolizerForSet wErr initCaches "/liba.so" ["20", "10"]).1 = some m ∧
      lookupA m "10" = some [(none, some "liba.so  ***Error: broken pipe")] ∧
      (∀ b ∈ (["20", "10"] : List String), (lookupA m b).isSome) ∧
      ∃ libCache,
        lookupA (CallLlvmSymbolizerForSet wErr initCaches "/liba.so" ["20", "10"]).2.addr2line
          "/liba.so" = some libCache ∧
        lookupA libCache "10" = some [(none, some "liba.so  ***Error: broken pipe")] := by
  have h := c7_io_error_degraded wErr initCaches "/liba.so" ["20", "10"] "10" "broken pipe"
    (by decide) (by decide) (by decide) (by decide) (by decide) (by decide)
  simpa using h

/-! Lemmas about the process pool. -/

lemma lookupA_append {α β : Type} [DecidableEq α] (l1 l2 : List (α × β)) (k : α) :
    lookupA (l1 ++ l2) k =
      match lookupA l1 k with
      | some v => some v
      | none => lookupA l2 k := by
  induction l1 with
  | nil => simp [lookupA]
  | cons p t ih =>
    rw [List.cons_append, lookupA, lookupA]
    by_cases h : p.1 = k
    · rw [if_pos h, if_pos h]
    · rw [if_neg h, if_neg h, ih]

lemma lookupA_filter_ne {α β : Type} [DecidableEq α] (l : List (α × β)) (k0 k : α) :
    lookupA (l.filter (fun i => i.1 ≠ k0)) k = if k = k0 then none else lookupA l k := by
  induction l with
  | nil => simp [lookupA]
  | cons p t ih =>
    rcases p with ⟨k1, v1⟩
    by_cases h : k1 = k0 <;> by_cases hk : k = k0 <;> by_cases h2 : k1 = k <;>
      simp_all [lookupA, List.filter_cons]

lemma map_fst_filter_ne {α β : Type} [DecidableEq α] (l : List (α × β)) (k : α) :
    (l.filter (fun i => i.1 ≠ k)).map (fun i => i.1) =
      (l.map (fun i => i.1)).filter (fun x => x ≠ k) := by
  induction l with
  | nil => rfl
  | cons p t ih =>
    by_cases h : p.1 = k
    · rw [List.filter_cons_of_neg (by simp [h]), List.map_cons,
        List.filter_cons_of_neg (by simp [h]), ih]
    · rw [List.filter_cons_of_pos (by simp [h]), List.map_cons, List.map_cons,
        List.filter_cons_of_pos (by simp [h]), ih]

lemma evictLoop_of_lt (s : PoolState) (h : s.lru.length < PIPE_MAX_OPEN) :
    evictLoop s = s := by
  unfold evictLoop
  cases hl : s.lru.length with
  | zero => rfl
  | succ n => rw [evictN, if_neg (by omega)]

lemma evictLoop_one (s : PoolState) (cp : List String × Nat)
    (hfull : s.lru.length = PIPE_MAX_OPEN) (hlast : s.lru.getLast? = some cp) :
    evictLoop s =
      { cmd2pipe := s.cmd2pipe.filter (fun i => i.1 ≠ cp.1),
        lru := s.lru.dropLast,
        nextPid := s.nextPid,
        terminated := s.terminated ++ [cp.2] } := by
  have hone : evictOnce s =
      { cmd2pipe := s.cmd2pipe.filter (fun i => i.1 ≠ cp.1),
        lru := s.lru.dropLast,
        nextPid := s.nextPid,
        terminated := s.terminated ++ [cp.2] } := by
    unfold evictOnce
    rw [hlast]
  unfold evictLoop
  rw [hfull]
  show evictN (9 + 1) s = _
  rw [evictN, if_pos (by omega), hone]
  show evictN (8 + 1) _ = _
  rw [evictN, if_neg (by simp [List.length_dropLast, hfull, PIPE_MAX_OPEN])]

lemma poolInv_getProcess (s : PoolState) (cmd : List String) (h : PoolInv s) :
    PoolInv (GetProcess s cmd).2 := by
  obtain ⟨hlen, hnd, hiff⟩ := h
  have hP : PIPE_MAX_OPEN = 10 := rfl
  unfold GetProcess PoolInv
  cases hc : lookupA s.cmd2pipe cmd with
  | some p =>
    have hmem : cmd ∈ s.lru.map (fun i => i.1) := by
      by_contra hnm
      have hn := (hiff cmd).mpr hnm
      rw [hc] at hn
      cases hn
    obtain ⟨x, hx, hfst⟩ := List.mem_map.mp hmem
    dsimp only
    refine ⟨?_, ?_, ?_⟩
    · have hflt : (s.lru.filter (fun i => i.1 ≠ cmd)).length < s.lru.length :=
        List.length_filter_lt_length_iff_exists.mpr ⟨x, hx, by simp [hfst]⟩
      simp only [List.length_cons]
      omega
    · rw [List.map_cons, map_fst_filter_ne]
      refine List.Nodup.cons ?_ (hnd.filter _)
      intro hmemf
      have := (List.mem_filter.mp hmemf).2
      simp at this
    · intro c
      rw [List.map_cons, map_fst_filter_ne]
      by_cases hceq : c = cmd
      · subst hceq
        rw [hc]
        simp [List.mem_cons]
      · rw [hiff c]
        simp [List.mem_cons, List.mem_filter, hceq]
  | none =>
    by_cases hfull : s.lru.length = PIPE_MAX_OPEN
    · have hne : s.lru ≠ [] := by
        intro hnil
        rw [hnil] at hfull
        simp [hP] at hfull
      have hlast : s.lru.getLast? = some (s.lru.getLast hne) :=
        List.getLast?_eq_getLast _ hne
      have hsplit : s.lru.dropLast ++ [s.lru.getLast hne] = s.lru :=
        List.dropLast_append_getLast hne
      have hkeys : s.lru.map (fun i => i.1) =
          (s.lru.map (fun i => i.1)).dropLast ++ [(s.lru.getLast hne).1] := by
        have h2 := congrArg (List.map (fun i : List String × Nat => i.1)) hsplit
        simpa using h2.symm
      have hnd2 := hnd
      rw [hkeys] at hnd2
      have hndsplit := List.nodup_append.mp hnd2
      have hcpD : (s.lru.getLast hne).1 ∉ (s.lru.map (fun i => i.1)).dropLast := by
        intro hmemD
        exact (hndsplit.2.2 hmemD) (List.mem_singleton.mpr rfl)
      have hcmdK : cmd ∉ s.lru.map (fun i => i.1) := (hiff cmd).mp hc
      have hcmdD : cmd ∉ (s.lru.map (fun i => i.1)).dropLast := fun hm =>
        hcmdK (by rw [hkeys]; exact List.mem_append_left _ hm)
      have hcmdcp : cmd ≠ (s.lru.getLast hne).1 := fun heq =>
        hcmdK (by rw [hkeys, heq]; exact List.mem_append_right _ (List.mem_singleton.mpr rfl))
      rw [evictLoop_one s (s.lru.getLast hne) hfull hlast]
      dsimp only
      refine ⟨?_, ?_, ?_⟩
      · simp only [List.length_cons, List.length_dropLast]
        omega
      · rw [List.map_cons, List.map_dropLast]
        exact List.Nodup.cons hcmdD hndsplit.1
      · intro c
        rw [List.map_cons, List.map_dropLast, lookupA_append, lookupA_filter_ne]
        by_cases hceq : c = cmd
        · subst hceq
          rw [if_neg hcmdcp, hc]
          simp [lookupA, List.mem_cons]
        · by_cases hccp : c = (s.lru.getLast hne).1
          · rw [if_pos hccp]
            have h1 : lookupA [(cmd, s.nextPid)] c = none := by
              rw [lookupA, if_neg (fun hh : cmd = c => hceq hh.symm)]
              rfl
            dsimp only
            rw [h1]
            subst hccp
            simp [List.mem_cons, hceq, hcpD]
          · rw [if_neg hccp]
            cases hl1 : lookupA s.cmd2pipe c with
            | some v =>
              have hmemK : c ∈ s.lru.map (fun i => i.1) := by
                by_contra hnm
                have hn := (hiff c).mpr hnm
                rw [hl1] at hn
                cases hn
              have hmemD : c ∈ (s.lru.map (fun i => i.1)).dropLast := by
                rw [hkeys] at hmemK
                rcases List.mem_append.mp hmemK with hm | hm
                · exact hm
                · exact absurd (List.mem_singleton.mp hm) hccp
              simp [List.mem_cons, hmemD]
            | none =>
              have hnmemK : c ∉ s.lru.map (fun i => i.1) := (hiff c).mp hl1
              have hnmemD : c ∉ (s.lru.map (fun i => i.1)).dropLast := fun hm =>
                hnmemK (by rw [hkeys]; exact List.mem_append_left _ hm)
              have h1 : lookupA [(cmd, s.nextPid)] c = none := by
                rw [lookupA, if_neg (fun hh : cmd = c => hceq hh.symm)]
                rfl
              dsimp only
              rw [h1]
              simp [List.mem_cons, hceq, hnmemD]
    · have hlt : s.lru.length < PIPE_MAX_OPEN := lt_of_le_of_ne hlen hfull
      rw [evictLoop_of_lt s hlt]
      have hcmdK : cmd ∉ s.lru.map (fun i => i.1) := (hiff cmd).mp hc
      dsimp only
      refine ⟨?_, ?_, ?_⟩
      · simp only [List.length_cons]
        omega
      · rw [List.map_cons]
        exact List.Nodup.cons hcmdK hnd
      · intro c
        rw [List.map_cons, lookupA_append]
        by_cases hceq : c = cmd
        · subst hceq
          rw [hc]
          simp [lookupA, List.mem_cons]
        · cases hl1 : lookupA s.cmd2pipe c with
          | some v =>
            have hmemK : c ∈ s.lru.map (fun i => i.1) := by
              by_contra hnm
              have hn := (hiff c).mpr hnm
              rw [hl1] at hn
              cases hn
            simp [List.mem_cons, hmemK]
          | none =>
            have hnmemK : c ∉ s.lru.map (fun i => i.1) := (hiff c).mp hl1
            have h1 : lookupA [(cmd, s.nextPid)] c = none := by
              rw [lookupA, if_neg (fun hh : cmd = c => hceq hh.symm)]
              rfl
            dsimp only
            rw [h1]
            simp [List.mem_cons, hceq, hnmemK]

lemma poolInv_init : PoolInv initPool := by
  refine ⟨by simp [initPool, PIPE_MAX_OPEN], by simp [initPool], fun c => ?_⟩
  simp [initPool, lookupA]

lemma poolInv_runPool (cmds : List (List String)) : PoolInv (runPool cmds) := by
  have hgen : ∀ (l : List (List String)) (s : PoolState), PoolInv s →
      PoolInv (l.foldl (fun s c => (GetProcess s c).2) s) := by
    intro l
    induction l with
    | nil => exact fun s hs => hs
    | cons c t ih => exact fun s hs => ih _ (poolInv_getProcess s c hs)
  exact hgen cmds initPool poolInv_init

/-- C2: across every sequence of GetProcess calls from the empty pool the
lru list never exceeds the 10-channel limit; acquiring a new command with
the pool full evicts exactly the least recently used channel (the last lru
entry), terminating its process, before the new channel is registered at the
front; and a cache hit returns the pooled channel and moves it to the
most-recently-used position. -/
theorem c2_pool_lru_bound :
    (∀ cmds : List (List String), (runPool cmds).lru.length ≤ PIPE_MAX_OPEN) ∧
    (∀ (s : PoolState) (cmd : List String) (cp : List String × Nat),
      lookupA s.cmd2pipe cmd = none → s.lru.length = PIPE_MAX_OPEN →
      s.lru.getLast? = some cp →
      (GetProcess s cmd).2.lru = (cmd, s.nextPid) :: s.lru.dropLast ∧
      (GetProcess s cmd).2.lru.length = PIPE_MAX_OPEN ∧
      (GetProcess s cmd).2.terminated = s.terminated ++ [cp.2] ∧
      (GetProcess s cmd).2.cmd2pipe =
        s.cmd2pipe.filter (fun i => i.1 ≠ cp.1) ++ [(cmd, s.nextPid)]) ∧
    (∀ (s : PoolState) (cmd : List String) (p : Nat),
      lookupA s.cmd2pipe cmd = some p →
      (GetProcess s cmd).1 = p ∧ (GetProcess s cmd).2.lru.head? = some (cmd, p)) := by
  have hP : PIPE_MAX_OPEN = 10 := rfl
  refine ⟨fun cmds => (poolInv_runPool cmds).1, ?_, ?_⟩
  · intro s cmd cp hc hfull hlast
    unfold GetProcess
    rw [hc]
    dsimp only
    rw [evictLoop_one s cp hfull hlast]
    dsimp only
    refine ⟨rfl, ?_, rfl, rfl⟩
    simp only [List.length_cons, List.length_dropLast]
    omega
  · intro s cmd p hc
    unfold GetProcess
    rw [hc]
    exact ⟨rfl, rfl⟩

/-- C2 witness: ten distinct commands fill the pool; an eleventh evicts
exactly the oldest channel, terminating its process (pid 0); a hit on the
fourth command moves its channel to the front; and the bound holds on the
run. -/
theorem c2_witness :
    ((GetProcess (runPool [["t0"], ["t1"], ["t2"], ["t3"], ["t4"], ["t5"], ["t6"], ["t7"],
        ["t8"], ["t9"]]) ["t10"]).2.lru.length = PIPE_MAX_OPEN ∧
      (GetProcess (runPool [["t0"], ["t1"], ["t2"], ["t3"], ["t4"], ["t5"], ["t6"], ["t7"],
        ["t8"], ["t9"]]) ["t10"]).2.terminated = [0]) ∧
    (GetProcess (runPool [["t0"], ["t1"], ["t2"], ["t3"], ["t4"], ["t5"], ["t6"], ["t7"],
        ["t8"], ["t9"]]) ["t3"]).2.lru.head? = some (["t3"], 3) ∧
    (runPool [["t0"], ["t1"], ["t2"], ["t3"], ["t4"], ["t5"], ["t6"], ["t7"],
        ["t8"], ["t9"]]).lru.length ≤ PIPE_MAX_OPEN := by
  refine ⟨?_, ?_, c2_pool_lru_bound.1 _⟩
  · have h := c2_pool_lru_bound.2.1 (runPool [["t0"], ["t1"], ["t2"], ["t3"], ["t4"], ["t5"],
      ["t6"], ["t7"], ["t8"], ["t9"]]) ["t10"] (["t0"], 0) (by decide) (by decide) (by decide)
    exact ⟨h.2.1, by rw [h.2.2.1]; decide⟩
  · exact (c2_pool_lru_bound.2.2 (runPool [["t0"], ["t1"], ["t2"], ["t3"], ["t4"], ["t5"],
      ["t6"], ["t7"], ["t8"], ["t9"]]) ["t3"] 3 (by decide)).2

/-- C3: KillAllProcesses terminates every pooled process, but the pool is
NOT left empty: the two trailing assignments at symbol.py:106-107 bind fresh
local variables instead of the object attributes, so cmd2pipe and lru keep
their now-dead channels.  The pool-with-one-channel evaluation below shows
the process terminated and the channel still registered; a repeated
CloseAllPipes (atexit hook plus signal handler) does not raise in the model
but re-walks the same stale channels instead of having no further effect. -/
theorem c3_kill_all_bug :
    (KillAllProcesses (GetProcess initPool ["llvm-symbolizer"]).2).terminated = [0] ∧
    (KillAllProcesses (GetProcess initPool ["llvm-symbolizer"]).2).lru =
      (GetProcess initPool ["llvm-symbolizer"]).2.lru ∧
    (KillAllProcesses (GetProcess initPool ["llvm-symbolizer"]).2).lru ≠ [] ∧
    lookupA (KillAllProcesses (GetProcess initPool ["llvm-symbolizer"]).2).cmd2pipe
      ["llvm-symbolizer"] = some 0 ∧
    (CloseAllPipes (CloseAllPipes ((GetProcess initPool ["llvm-symbolizer"]).2,
      initPool))).1.lru ≠ [] := by
  exact ⟨by decide, by decide, by decide, by decide, by decide⟩

end Symbol
